import Mathlib

/-!
Image signing and staging-signature validation of the image promoter.

A shallow embedding of `internal/promoter/image/sign.go` (package `imagepromoter`):
`ValidateStagingSignatures`, `SignImages` and `GetIdentityToken`.

Conventions of the embedding.

* A Go `error` value is a `GoError`; a result of Go type `error` is an `Option GoError`
  (`none` is `nil`).
* The signer (`sigs.k8s.io/release-sdk/sign`) and the IAM credentials client are external
  collaborators.  They are parameters of the functions: a `Signer` gives the answer of each
  of its three operations as a function of the reference string (the signer gateway is
  stateless across calls), and every call the code makes on it is recorded, in order, in
  the second component of the result.
* `for edge := range edges` walks the keys of a Go map in an order the language leaves
  open.  The functions take the keys as a list, in the order in which the loop yields them;
  a statement for "every order" quantifies over the permutations of that list.
* The receiver `di`, `opts`, `sc` and the map values are never read by the code and are
  left out; the `logrus` lines have no influence on results or signer calls and are left
  out as well.
-/

namespace imagepromoter

/-! ## Errors (`github.com/pkg/errors`) -/

/-- A Go error value: either an error produced by a collaborator, carrying its message, or
an error built by `errors.Wrap`/`errors.Wrapf` around a cause. -/
inductive GoError where
  | base (msg : String)
  | wrap (cause : GoError) (msg : String)
  deriving DecidableEq, Repr

/-- The method `Error()`: for a wrapped error it is `msg + ": " + cause.Error()`
(`withMessage.Error` of `pkg/errors`). -/
def GoError.Error : GoError → String
  | .base msg => msg
  | .wrap cause msg => msg ++ ": " ++ cause.Error

/-- The error that the outermost `errors.Wrap`/`errors.Wrapf` call was given, when the
value was built by such a call.  A `wrap` value stands for both layers the library builds in
one call (a stack layer over a message layer), so on the library value this is what two
steps of `Unwrap` reach. -/
def GoError.wrappedCause : GoError → Option GoError
  | .base _ => none
  | .wrap cause _ => some cause

/-- The calls `errors.Wrap(err, message)` and `errors.Wrapf(err, format, args...)` on a
non-nil `err`; for `Wrapf`, `message` is the formatted text. -/
def Wrap (err : GoError) (message : String) : GoError :=
  .wrap err message

/-- The text `s` occurs in `msg` as a contiguous piece (`strings.Contains(msg, s)`). -/
def Mentions (msg s : String) : Prop :=
  s.data <:+: msg.data

instance (msg s : String) : Decidable (Mentions msg s) := by
  unfold Mentions; infer_instance

/-! ## Promotion edges (`reg.PromotionEdge`) -/

/-- Modelled from the spec: the declaration of `reg.RegistryContext` is not part of the
source file; the code reads its field `Name` only (the registry identity). -/
structure RegistryContext where
  Name : String
  deriving DecidableEq, Repr

/-- Modelled from the spec: the declaration of `reg.ImageTag` is not part of the source
file; the code reads its field `Name` only (the image name). -/
structure ImageTag where
  Name : String
  deriving DecidableEq, Repr

/-- Modelled from the spec: the declaration of `reg.PromotionEdge` is not part of the
source file.  An edge has a source registry and image, a destination registry and image,
and one content digest shared by both ends. -/
structure PromotionEdge where
  SrcRegistry : RegistryContext
  SrcImageTag : ImageTag
  Digest : String
  DstRegistry : RegistryContext
  DstImageTag : ImageTag
  deriving DecidableEq, Repr

/-- The reference `fmt.Sprintf("%s/%s@%s", edge.SrcRegistry.Name, edge.SrcImageTag.Name,
edge.Digest)` computed in the loop of `ValidateStagingSignatures`. -/
def srcImageRef (edge : PromotionEdge) : String :=
  edge.SrcRegistry.Name ++ "/" ++ edge.SrcImageTag.Name ++ "@" ++ edge.Digest

/-- The reference `fmt.Sprintf("%s/%s@%s", edge.DstRegistry.Name, edge.DstImageTag.Name,
edge.Digest)` computed in the loop of `SignImages`. -/
def dstImageRef (edge : PromotionEdge) : String :=
  edge.DstRegistry.Name ++ "/" ++ edge.DstImageTag.Name ++ "@" ++ edge.Digest

/-! ## The signer -/

/-- The object returned by `VerifyImage` and `SignImage`; the code discards it. -/
structure SignedObject where
  ref : String
  deriving DecidableEq, Repr

/-- The three operations of the signer the code uses, each a function of the reference
string: the signer keeps no state between calls. -/
structure Signer where
  IsImageSigned : String → Except GoError Bool
  VerifyImage : String → Except GoError SignedObject
  SignImage : String → Except GoError SignedObject

/-- One call made on the signer, with the reference passed. -/
inductive SignerCall where
  | IsImageSigned (ref : String)
  | VerifyImage (ref : String)
  | SignImage (ref : String)
  deriving DecidableEq, Repr

/-! ## `ValidateStagingSignatures` and `SignImages` -/

/-- The function `ValidateStagingSignatures`: the returned error and the signer calls made,
in order.  The argument is the list of map keys in iteration order. -/
def ValidateStagingSignatures (signer : Signer) :
    List PromotionEdge → Option GoError × List SignerCall
  | [] => (none, [])
  | edge :: rest =>
    let imageRef := srcImageRef edge
    match signer.IsImageSigned imageRef with
    | .error err =>
      (some (Wrap err ("checking if " ++ imageRef ++ " is signed")),
        [.IsImageSigned imageRef])
    | .ok false =>
      let r := ValidateStagingSignatures signer rest
      (r.1, .IsImageSigned imageRef :: r.2)
    | .ok true =>
      match signer.VerifyImage imageRef with
      | .error err =>
        (some (Wrap err ("verifying signatures of image " ++ imageRef)),
          [.IsImageSigned imageRef, .VerifyImage imageRef])
      | .ok _ =>
        let r := ValidateStagingSignatures signer rest
        (r.1, .IsImageSigned imageRef :: .VerifyImage imageRef :: r.2)

/-- The function `SignImages`: the returned error and the signer calls made, in order.
The argument is the list of map keys in iteration order. -/
def SignImages (signer : Signer) : List PromotionEdge → Option GoError × List SignerCall
  | [] => (none, [])
  | edge :: rest =>
    let imageRef := dstImageRef edge
    match signer.SignImage imageRef with
    | .error err => (some (Wrap err ("signing image " ++ imageRef)), [.SignImage imageRef])
    | .ok _ =>
      let r := SignImages signer rest
      (r.1, .SignImage imageRef :: r.2)

/-! ## `GetIdentityToken` -/

/-- The request message `credentialspb.GenerateIdTokenRequest` (the fields the code sets). -/
structure GenerateIdTokenRequest where
  Name : String
  Audience : String
  IncludeEmail : Bool
  deriving DecidableEq, Repr

/-- The response message `credentialspb.GenerateIdTokenResponse`. -/
structure GenerateIdTokenResponse where
  Token : String
  deriving DecidableEq, Repr

/-- A client of the IAM credentials service: the answer of `GenerateIdToken` to a request. -/
structure IamCredentialsClient where
  GenerateIdToken : GenerateIdTokenRequest → Except GoError GenerateIdTokenResponse

/-- The credentials package as the code sees it: the outcome of
`credentials.NewIamCredentialsClient(ctx)`. -/
structure Credentials where
  NewIamCredentialsClient : Except GoError IamCredentialsClient

/-- One call made on the credentials service. -/
inductive ClientCall where
  | NewIamCredentialsClient
  | GenerateIdToken (req : GenerateIdTokenRequest)
  | Close
  deriving DecidableEq, Repr

/-- The request built by `GetIdentityToken` for a service account. -/
def tokenRequest (serviceAccount : String) : GenerateIdTokenRequest :=
  { Name := "projects/-/serviceAccounts/" ++ serviceAccount
    Audience := "sigstore"
    IncludeEmail := true }

/-- The function `GetIdentityToken`: the pair `(tok, err)` it returns and the calls made on
the credentials service, in order (`Close` is the deferred call, run on return). -/
def GetIdentityToken (credentials : Credentials) (serviceAccount : String) :
    (String × Option GoError) × List ClientCall :=
  let tok := ""
  match credentials.NewIamCredentialsClient with
  | .error err =>
    ((tok, some (Wrap err "creating credentials token")), [.NewIamCredentialsClient])
  | .ok c =>
    let req := tokenRequest serviceAccount
    match c.GenerateIdToken req with
    | .error err =>
      ((tok, some (Wrap err "getting error account")),
        [.NewIamCredentialsClient, .GenerateIdToken req, .Close])
    | .ok resp =>
      ((resp.Token, none), [.NewIamCredentialsClient, .GenerateIdToken req, .Close])

/-- The token requests among the calls made on the credentials service. -/
def tokenRequests : List ClientCall → List GenerateIdTokenRequest
  | [] => []
  | .GenerateIdToken req :: rest => req :: tokenRequests rest
  | _ :: rest => tokenRequests rest

/-! ## Vocabulary of the statements -/

/-- The edge is acceptable at staging: its source reference is reported unsigned without
error, or reported signed without error and verified successfully. -/
def EdgeValid (signer : Signer) (edge : PromotionEdge) : Prop :=
  signer.IsImageSigned (srcImageRef edge) = .ok false ∨
    (signer.IsImageSigned (srcImageRef edge) = .ok true ∧
      ∃ obj, signer.VerifyImage (srcImageRef edge) = .ok obj)

/-- The check of the edge fails with error `err`, and `call` is the signer call that
failed: `IsImageSigned` returned the cause `c` (wrapped as "checking if R is signed"), or
the reference is signed and `VerifyImage` returned the cause `c` (wrapped as "verifying
signatures of image R"). -/
def EdgeFailsWith (signer : Signer) (edge : PromotionEdge) (c err : GoError)
    (call : SignerCall) : Prop :=
  (signer.IsImageSigned (srcImageRef edge) = .error c ∧
      err = .wrap c ("checking if " ++ srcImageRef edge ++ " is signed") ∧
      call = .IsImageSigned (srcImageRef edge)) ∨
    (signer.IsImageSigned (srcImageRef edge) = .ok true ∧
      signer.VerifyImage (srcImageRef edge) = .error c ∧
      err = .wrap c ("verifying signatures of image " ++ srcImageRef edge) ∧
      call = .VerifyImage (srcImageRef edge))

/-- The signer calls one pass of the validation loop makes for an edge: one
`IsImageSigned` call and, when that reports the reference signed, one `VerifyImage` call. -/
def checkCalls (signer : Signer) (edge : PromotionEdge) : List SignerCall :=
  match signer.IsImageSigned (srcImageRef edge) with
  | .ok true => [.IsImageSigned (srcImageRef edge), .VerifyImage (srcImageRef edge)]
  | _ => [.IsImageSigned (srcImageRef edge)]

/-- The signer calls of the validation loop over a run of edges none of which fails. -/
def checkCallsAll (signer : Signer) : List PromotionEdge → List SignerCall
  | [] => []
  | edge :: rest => checkCalls signer edge ++ checkCallsAll signer rest

/-- The sign call made for an edge: `SignImage` on the destination reference. -/
def signCall (edge : PromotionEdge) : SignerCall :=
  .SignImage (dstImageRef edge)

/-- The number of `IsImageSigned` calls in a sequence of signer calls. -/
def countIsImageSigned : List SignerCall → Nat
  | [] => 0
  | .IsImageSigned _ :: rest => countIsImageSigned rest + 1
  | _ :: rest => countIsImageSigned rest

/-- The number of `VerifyImage` calls in a sequence of signer calls. -/
def countVerifyImage : List SignerCall → Nat
  | [] => 0
  | .VerifyImage _ :: rest => countVerifyImage rest + 1
  | _ :: rest => countVerifyImage rest

/-! ## Concrete signers and edges used to instantiate the statements -/

/-- An edge from a staging registry to a production registry. -/
def edgeOf (srcRegistry dstRegistry image digest : String) : PromotionEdge :=
  { SrcRegistry := ⟨srcRegistry⟩, SrcImageTag := ⟨image⟩, Digest := digest,
    DstRegistry := ⟨dstRegistry⟩, DstImageTag := ⟨image⟩ }

/-- A signer that reports as signed exactly the references in `signed`, fails verification
exactly on the references in `invalid` and fails signing exactly on those in `unsignable`. -/
def listSigner (signed invalid unsignable : List String) : Signer :=
  { IsImageSigned := fun ref => .ok (decide (ref ∈ signed))
    VerifyImage := fun ref =>
      if ref ∈ invalid then .error (.base "invalid signature") else .ok ⟨ref⟩
    SignImage := fun ref =>
      if ref ∈ unsignable then .error (.base "registry unavailable") else .ok ⟨ref⟩ }

/-- The first staging edge of the examples. -/
def edgeA : PromotionEdge := edgeOf "stg" "prod" "a" "sha256:1"

/-- The second staging edge of the examples. -/
def edgeB : PromotionEdge := edgeOf "stg" "prod" "b" "sha256:2"

/-- The third staging edge of the examples. -/
def edgeC : PromotionEdge := edgeOf "stg" "prod" "c" "sha256:3"

/-- A signer under which `edgeB` is signed with an invalid signature and nothing else is
signed. -/
def signerBInvalid : Signer := listSigner ["stg/b@sha256:2"] ["stg/b@sha256:2"] []

/-- A signer whose sign operation fails on the destination of `edgeB` only. -/
def signerBUnsignable : Signer := listSigner [] [] ["prod/b@sha256:2"]

/-- A signer under which nothing is signed and every operation succeeds. -/
def signerNothingSigned : Signer := listSigner [] [] []

/-- Two staging edges whose source references are nested: `cr.io/p/img@sha256:1` is a piece
of `gcr.io/p/img@sha256:1`. -/
def edgeNestedA : PromotionEdge := edgeOf "cr.io/p" "prod" "img" "sha256:1"

/-- The edge whose source reference contains the one of `edgeNestedA`. -/
def edgeNestedB : PromotionEdge := edgeOf "gcr.io/p" "prod" "img" "sha256:1"

/-- A signer under which `edgeNestedB` is signed with an invalid signature and nothing else
is signed. -/
def signerNestedBInvalid : Signer :=
  listSigner ["gcr.io/p/img@sha256:1"] ["gcr.io/p/img@sha256:1"] []

/-- A signer under which only `stg/b@sha256:2` is signed, and whose verification error
quotes another image. -/
def signerQuoting : Signer :=
  { IsImageSigned := fun ref => .ok (decide (ref = "stg/b@sha256:2"))
    VerifyImage := fun _ => .error (.base "signature was made for stg/a@sha256:1")
    SignImage := fun ref => .ok ⟨ref⟩ }

/-- An edge whose destination registry and image carry the same names as its source. -/
def edgeSamePlace : PromotionEdge := edgeOf "reg" "reg" "img" "sha256:1"

/-- A credentials service for which no client can be created. -/
def credentialsNoClient : Credentials :=
  ⟨.error (.base "could not find default credentials")⟩

/-- A credentials service whose client refuses every token request. -/
def credentialsDenied : Credentials :=
  ⟨.ok ⟨fun _ => .error (.base "permission denied")⟩⟩

/-- A credentials service whose client answers every request with a token. -/
def credentialsGranting : Credentials :=
  ⟨.ok ⟨fun req => .ok ⟨"token of " ++ req.Name⟩⟩⟩

/-! ## Helper lemmas -/

theorem validate_append_valid (signer : Signer) (pre rest : List PromotionEdge)
    (hpre : ∀ e ∈ pre, EdgeValid signer e) :
    ValidateStagingSignatures signer (pre ++ rest) =
      ((ValidateStagingSignatures signer rest).1,
        checkCallsAll signer pre ++ (ValidateStagingSignatures signer rest).2) := by
  induction pre with
  | nil => simp [checkCallsAll]
  | cons e pre ih =>
    have ih := ih (fun x hx => hpre x (List.mem_cons_of_mem _ hx))
    rcases hpre e (List.mem_cons_self _ _) with h | ⟨h, obj, hv⟩
    · simp [ValidateStagingSignatures, checkCallsAll, checkCalls, h, ih]
    · simp [ValidateStagingSignatures, checkCallsAll, checkCalls, h, hv, ih]

theorem validate_cons_fails (signer : Signer) (e : PromotionEdge) (rest : List PromotionEdge)
    (c err : GoError) (call : SignerCall) (hf : EdgeFailsWith signer e c err call) :
    ValidateStagingSignatures signer (e :: rest) = (some err, checkCalls signer e) ∧
      (checkCalls signer e).getLast? = some call := by
  rcases hf with ⟨h, rfl, rfl⟩ | ⟨h, hv, rfl, rfl⟩
  · simp [ValidateStagingSignatures, checkCalls, h, Wrap]
  · simp [ValidateStagingSignatures, checkCalls, h, hv, Wrap]

theorem validate_nil_iff (signer : Signer) (edges : List PromotionEdge) :
    (ValidateStagingSignatures signer edges).1 = none ↔ ∀ e ∈ edges, EdgeValid signer e := by
  induction edges with
  | nil => simp [ValidateStagingSignatures]
  | cons e rest ih =>
    cases h : signer.IsImageSigned (srcImageRef e) with
    | error c => simp [ValidateStagingSignatures, EdgeValid, h]
    | ok b =>
      cases b with
      | false => simp [ValidateStagingSignatures, EdgeValid, h, ih]
      | true =>
        cases hv : signer.VerifyImage (srcImageRef e) with
        | error c => simp [ValidateStagingSignatures, EdgeValid, h, hv]
        | ok obj => simp [ValidateStagingSignatures, EdgeValid, h, hv, ih]

/-- Every run of the validation stops at a first failing edge or finds all edges valid. -/
theorem validate_cases (signer : Signer) (edges : List PromotionEdge) :
    (∀ e ∈ edges, EdgeValid signer e) ∨
      ∃ pre e post c err call, edges = pre ++ e :: post ∧ (∀ x ∈ pre, EdgeValid signer x) ∧
        EdgeFailsWith signer e c err call := by
  induction edges with
  | nil => left; simp
  | cons e rest ih =>
    have hhead : EdgeValid signer e ∨ ∃ c err call, EdgeFailsWith signer e c err call := by
      cases h : signer.IsImageSigned (srcImageRef e) with
      | error c => right; exact ⟨c, _, _, Or.inl ⟨h, rfl, rfl⟩⟩
      | ok b =>
        cases b with
        | false => left; exact Or.inl h
        | true =>
          cases hv : signer.VerifyImage (srcImageRef e) with
          | error c => right; exact ⟨c, _, _, Or.inr ⟨h, hv, rfl, rfl⟩⟩
          | ok obj => left; exact Or.inr ⟨h, obj, hv⟩
    rcases hhead with hval | ⟨c, err, call, hf⟩
    · rcases ih with hall | ⟨pre, x, post, c, err, call, heq, hpre, hf⟩
      · left
        intro y hy
        rcases List.mem_cons.mp hy with rfl | hy
        · exact hval
        · exact hall y hy
      · right
        refine ⟨e :: pre, x, post, c, err, call, by simp [heq], ?_, hf⟩
        intro y hy
        rcases List.mem_cons.mp hy with rfl | hy
        · exact hval
        · exact hpre y hy
    · right
      exact ⟨[], e, rest, c, err, call, rfl, by simp, hf⟩

theorem sign_append_ok (signer : Signer) (pre rest : List PromotionEdge)
    (hpre : ∀ e ∈ pre, ∃ obj, signer.SignImage (dstImageRef e) = .ok obj) :
    SignImages signer (pre ++ rest) =
      ((SignImages signer rest).1, pre.map signCall ++ (SignImages signer rest).2) := by
  induction pre with
  | nil => simp
  | cons e pre ih =>
    have ih := ih (fun x hx => hpre x (List.mem_cons_of_mem _ hx))
    obtain ⟨obj, h⟩ := hpre e (List.mem_cons_self _ _)
    simp [SignImages, signCall, h, ih]

theorem sign_nil_iff (signer : Signer) (edges : List PromotionEdge) :
    (SignImages signer edges).1 = none ↔
      ∀ e ∈ edges, ∃ obj, signer.SignImage (dstImageRef e) = .ok obj := by
  induction edges with
  | nil => simp [SignImages]
  | cons e rest ih =>
    cases h : signer.SignImage (dstImageRef e) with
    | error c => simp [SignImages, h]
    | ok obj => simp [SignImages, h, ih]

theorem checkCallsAll_unsigned (signer : Signer) (edges : List PromotionEdge)
    (h : ∀ e ∈ edges, signer.IsImageSigned (srcImageRef e) = .ok false) :
    checkCallsAll signer edges = edges.map (fun e => SignerCall.IsImageSigned (srcImageRef e)) := by
  induction edges with
  | nil => rfl
  | cons e rest ih =>
    have ih := ih (fun x hx => h x (List.mem_cons_of_mem _ hx))
    simp [checkCallsAll, checkCalls, h e (List.mem_cons_self _ _), ih]

theorem countVerifyImage_map_isImageSigned (refs : List String) :
    countVerifyImage (refs.map SignerCall.IsImageSigned) = 0 := by
  induction refs with
  | nil => rfl
  | cons r rest ih => simpa [countVerifyImage] using ih

theorem string_append_right_cancel (a b s : String) : a ++ s = b ++ s ↔ a = b := by
  constructor
  · intro h
    have hd : (a ++ s).data = (b ++ s).data := by rw [h]
    rw [String.data_append, String.data_append] at hd
    exact String.ext (List.append_cancel_right hd)
  · intro h
    rw [h]

theorem mentions_middle (p r q : String) : Mentions (p ++ r ++ q) r := by
  unfold Mentions
  exact ⟨p.data, q.data, by simp [String.data_append]⟩

theorem wrap_checking_message (c : GoError) (ref : String) :
    (GoError.wrap c ("checking if " ++ ref ++ " is signed")).Error =
      "checking if " ++ ref ++ " is signed: " ++ c.Error := by
  have h : " is signed: " = " is signed" ++ ": " := by decide
  rw [h]
  simp [GoError.Error, String.append_assoc]

theorem wrap_verifying_mentions (c : GoError) (ref : String) :
    Mentions (GoError.wrap c ("verifying signatures of image " ++ ref)).Error ref := by
  have h : (GoError.wrap c ("verifying signatures of image " ++ ref)).Error =
      "verifying signatures of image " ++ ref ++ (": " ++ c.Error) := by
    simp [GoError.Error, String.append_assoc]
  rw [h]
  exact mentions_middle _ _ _

theorem validate_error_shape (signer : Signer) (edges : List PromotionEdge) (err : GoError)
    (h : (ValidateStagingSignatures signer edges).1 = some err) :
    ∃ pre e post c call, edges = pre ++ e :: post ∧ (∀ x ∈ pre, EdgeValid signer x) ∧
      EdgeFailsWith signer e c err call := by
  rcases validate_cases signer edges with hall | ⟨pre, e, post, c, err2, call, heq, hpre, hf⟩
  · rw [(validate_nil_iff signer edges).mpr hall] at h
    cases h
  · have h1 := validate_append_valid signer pre (e :: post) hpre
    obtain ⟨h2, _⟩ := validate_cons_fails signer e post c err2 call hf
    rw [heq, h1, h2] at h
    cases h
    exact ⟨pre, e, post, c, call, heq, hpre, hf⟩

theorem sign_calls_take (signer : Signer) (edges : List PromotionEdge) :
    ∃ n, n ≤ edges.length ∧ (SignImages signer edges).2 = (edges.take n).map signCall := by
  induction edges with
  | nil => exact ⟨0, Nat.le_refl _, rfl⟩
  | cons e rest ih =>
    obtain ⟨n, hn, hlog⟩ := ih
    cases h : signer.SignImage (dstImageRef e) with
    | error c =>
      refine ⟨1, by simp, ?_⟩
      simp [SignImages, h, signCall]
    | ok obj =>
      refine ⟨n + 1, by simpa using hn, ?_⟩
      simp [SignImages, h, signCall, hlog]

/-! ## The staging signature validator -/

/-- C1: for a signer whose answers are functions of the reference,
`ValidateStagingSignatures` returns nil exactly when every edge has a source reference
`SrcRegistry.Name/SrcImageTag.Name@Digest` that is reported unsigned without error, or
reported signed without error and verified successfully. -/
theorem ValidateStagingSignatures_nil_iff (signer : Signer) (edges : List PromotionEdge) :
    (ValidateStagingSignatures signer edges).1 = none ↔
      ∀ e ∈ edges,
        signer.IsImageSigned
            (e.SrcRegistry.Name ++ "/" ++ e.SrcImageTag.Name ++ "@" ++ e.Digest) = .ok false ∨
          (signer.IsImageSigned
              (e.SrcRegistry.Name ++ "/" ++ e.SrcImageTag.Name ++ "@" ++ e.Digest) = .ok true ∧
            ∃ obj, signer.VerifyImage
              (e.SrcRegistry.Name ++ "/" ++ e.SrcImageTag.Name ++ "@" ++ e.Digest) = .ok obj) := by
  induction edges with
  | nil => simp [ValidateStagingSignatures]
  | cons e rest ih =>
    have href : e.SrcRegistry.Name ++ "/" ++ e.SrcImageTag.Name ++ "@" ++ e.Digest =
        srcImageRef e := rfl
    cases h : signer.IsImageSigned (srcImageRef e) with
    | error c => simp [ValidateStagingSignatures, href, h]
    | ok b =>
      cases b with
      | false => simp [ValidateStagingSignatures, href, h, ih]
      | true =>
        cases hv : signer.VerifyImage (srcImageRef e) with
        | error c => simp [ValidateStagingSignatures, href, h, hv]
        | ok obj => simp [ValidateStagingSignatures, href, h, hv, ih]

/-- C2: when the edges are walked in the order `pre ++ ek :: post`, every edge of `pre` is
valid and `ek` is the first edge whose check fails (its `IsImageSigned` errors, or it is
signed and `VerifyImage` errors), the function returns a non-nil error, the signer calls
made are those for `pre` followed by those for `ek`, the failing call on the reference of
`ek` is the last call made, and the whole result is the one obtained without `post`: no
call is made for an edge after `ek`. -/
theorem ValidateStagingSignatures_stops_at_first_failure (signer : Signer)
    (pre post : List PromotionEdge) (ek : PromotionEdge) (c err : GoError) (call : SignerCall)
    (hpre : ∀ e ∈ pre, EdgeValid signer e) (hfail : EdgeFailsWith signer ek c err call) :
    (ValidateStagingSignatures signer (pre ++ ek :: post)).1 = some err ∧
      (ValidateStagingSignatures signer (pre ++ ek :: post)).2 =
        checkCallsAll signer pre ++ checkCalls signer ek ∧
      (ValidateStagingSignatures signer (pre ++ ek :: post)).2.getLast? = some call ∧
      (call = .IsImageSigned (srcImageRef ek) ∨ call = .VerifyImage (srcImageRef ek)) ∧
      ValidateStagingSignatures signer (pre ++ ek :: post) =
        ValidateStagingSignatures signer (pre ++ [ek]) := by
  have h1 := validate_append_valid signer pre (ek :: post) hpre
  have h2 := validate_append_valid signer pre [ek] hpre
  obtain ⟨h3, h4⟩ := validate_cons_fails signer ek post c err call hfail
  obtain ⟨h5, _⟩ := validate_cons_fails signer ek [] c err call hfail
  have hne : checkCalls signer ek ≠ [] := by
    intro h
    rw [h] at h4
    simp at h4
  have hcall : call = .IsImageSigned (srcImageRef ek) ∨ call = .VerifyImage (srcImageRef ek) := by
    rcases hfail with ⟨_, _, h⟩ | ⟨_, _, _, h⟩
    · exact Or.inl h
    · exact Or.inr h
  rw [h1, h2, h3, h5]
  refine ⟨rfl, rfl, ?_, hcall, rfl⟩
  simp only [List.getLast?_append_of_ne_nil _ hne, h4]

/-- Witness of C2 -/
theorem ValidateStagingSignatures_stops_at_first_failure_witness :
    (∀ e ∈ [edgeA], EdgeValid signerBInvalid e) ∧
      EdgeFailsWith signerBInvalid edgeB (.base "invalid signature")
        (.wrap (.base "invalid signature") "verifying signatures of image stg/b@sha256:2")
        (.VerifyImage "stg/b@sha256:2") ∧
      ((ValidateStagingSignatures signerBInvalid ([edgeA] ++ edgeB :: [edgeC])).1 =
          some (.wrap (.base "invalid signature")
            "verifying signatures of image stg/b@sha256:2") ∧
        (ValidateStagingSignatures signerBInvalid ([edgeA] ++ edgeB :: [edgeC])).2 =
          checkCallsAll signerBInvalid [edgeA] ++ checkCalls signerBInvalid edgeB ∧
        (ValidateStagingSignatures signerBInvalid ([edgeA] ++ edgeB :: [edgeC])).2.getLast? =
          some (.VerifyImage "stg/b@sha256:2") ∧
        (SignerCall.VerifyImage "stg/b@sha256:2" = .IsImageSigned (srcImageRef edgeB) ∨
          SignerCall.VerifyImage "stg/b@sha256:2" = .VerifyImage (srcImageRef edgeB)) ∧
        ValidateStagingSignatures signerBInvalid ([edgeA] ++ edgeB :: [edgeC]) =
          ValidateStagingSignatures signerBInvalid ([edgeA] ++ [edgeB])) :=
  have hpre : ∀ e ∈ [edgeA], EdgeValid signerBInvalid e := by
    intro e he
    rw [List.mem_singleton] at he
    subst he
    exact Or.inl rfl
  have hfail : EdgeFailsWith signerBInvalid edgeB (.base "invalid signature")
      (.wrap (.base "invalid signature") "verifying signatures of image stg/b@sha256:2")
      (.VerifyImage "stg/b@sha256:2") := Or.inr ⟨rfl, rfl, rfl, rfl⟩
  ⟨hpre, hfail,
    ValidateStagingSignatures_stops_at_first_failure signerBInvalid [edgeA] [edgeC] edgeB _ _ _
      hpre hfail⟩

/-- C6: when `IsImageSigned` reports the source reference of every edge unsigned without
error, `ValidateStagingSignatures` returns nil, its signer calls are exactly one
`IsImageSigned` call per edge, in iteration order, and none of them is a `VerifyImage`
call. -/
theorem ValidateStagingSignatures_all_unsigned (signer : Signer) (edges : List PromotionEdge)
    (h : ∀ e ∈ edges, signer.IsImageSigned (srcImageRef e) = .ok false) :
    ValidateStagingSignatures signer edges =
        (none, edges.map (fun e => SignerCall.IsImageSigned (srcImageRef e))) ∧
      countVerifyImage (ValidateStagingSignatures signer edges).2 = 0 ∧
      countIsImageSigned (ValidateStagingSignatures signer edges).2 = edges.length := by
  have hv : ∀ e ∈ edges, EdgeValid signer e := fun e he => Or.inl (h e he)
  have h1 := validate_append_valid signer edges [] hv
  rw [List.append_nil] at h1
  have h2 : ValidateStagingSignatures signer edges =
      (none, edges.map (fun e => SignerCall.IsImageSigned (srcImageRef e))) := by
    rw [h1, checkCallsAll_unsigned signer edges h]
    simp [ValidateStagingSignatures]
  refine ⟨h2, ?_, ?_⟩
  · rw [h2]
    have := countVerifyImage_map_isImageSigned (edges.map srcImageRef)
    simpa [List.map_map, Function.comp_def] using this
  · rw [h2]
    clear h hv h1 h2
    induction edges with
    | nil => rfl
    | cons e rest ih => simpa [countIsImageSigned] using ih

/-- Witness of C6 -/
theorem ValidateStagingSignatures_all_unsigned_witness :
    (∀ e ∈ [edgeA, edgeB],
        signerNothingSigned.IsImageSigned (srcImageRef e) = .ok false) ∧
      (ValidateStagingSignatures signerNothingSigned [edgeA, edgeB] =
          (none, [.IsImageSigned "stg/a@sha256:1", .IsImageSigned "stg/b@sha256:2"]) ∧
        countVerifyImage (ValidateStagingSignatures signerNothingSigned [edgeA, edgeB]).2 = 0 ∧
        countIsImageSigned (ValidateStagingSignatures signerNothingSigned [edgeA, edgeB]).2 =
          2) :=
  have h : ∀ e ∈ [edgeA, edgeB],
      signerNothingSigned.IsImageSigned (srcImageRef e) = .ok false := fun _ _ => rfl
  ⟨h, ValidateStagingSignatures_all_unsigned signerNothingSigned [edgeA, edgeB] h⟩

/-! ## The promotion signer -/

/-- C3: when the sign operation of the signer succeeds on every reference, `SignImages`
returns nil and its signer calls are exactly one `SignImage` call per edge, in iteration
order, each with the reference `DstRegistry.Name/DstImageTag.Name@Digest` of that edge;
there is no other signer call. -/
theorem SignImages_all_ok (signer : Signer) (edges : List PromotionEdge)
    (h : ∀ ref, ∃ obj, signer.SignImage ref = .ok obj) :
    SignImages signer edges =
        (none, edges.map (fun e => SignerCall.SignImage
          (e.DstRegistry.Name ++ "/" ++ e.DstImageTag.Name ++ "@" ++ e.Digest))) ∧
      (SignImages signer edges).2.length = edges.length := by
  have h1 := sign_append_ok signer edges [] (fun e _ => h (dstImageRef e))
  rw [List.append_nil] at h1
  have h2 : SignImages signer edges =
      (none, edges.map (fun e => SignerCall.SignImage
        (e.DstRegistry.Name ++ "/" ++ e.DstImageTag.Name ++ "@" ++ e.Digest))) := by
    rw [h1]
    simp [SignImages]
    exact fun _ _ => rfl
  refine ⟨h2, ?_⟩
  rw [h2]
  simp

/-- Witness of C3 -/
theorem SignImages_all_ok_witness :
    (∀ ref, ∃ obj, signerNothingSigned.SignImage ref = .ok obj) ∧
      (SignImages signerNothingSigned [edgeA, edgeB] =
          (none, [edgeA, edgeB].map (fun e => SignerCall.SignImage
            (e.DstRegistry.Name ++ "/" ++ e.DstImageTag.Name ++ "@" ++ e.Digest))) ∧
        (SignImages signerNothingSigned [edgeA, edgeB]).2.length = 2) :=
  have h : ∀ ref, ∃ obj, signerNothingSigned.SignImage ref = .ok obj := fun ref => ⟨⟨ref⟩, rfl⟩
  ⟨h, SignImages_all_ok signerNothingSigned [edgeA, edgeB] h⟩

/-- C4: when the edges are walked in the order `pre ++ ek :: post`, the sign operation
succeeds on the destination reference of every edge of `pre` and fails with cause `c` on
the destination reference `R` of `ek`, `SignImages` returns the error that wraps `c` with
message `"signing image " + R + ": " + c`, and its signer calls are exactly one `SignImage`
call for each edge of `pre` and then for `ek`, in that order: nothing is called for an edge
of `post` and no call other than `SignImage` (so no undo of the edges already signed) is
made. -/
theorem SignImages_stops_at_first_failure (signer : Signer) (pre post : List PromotionEdge)
    (ek : PromotionEdge) (c : GoError)
    (hpre : ∀ e ∈ pre, ∃ obj, signer.SignImage (dstImageRef e) = .ok obj)
    (hfail : signer.SignImage (dstImageRef ek) = .error c) :
    ∃ err, SignImages signer (pre ++ ek :: post) =
        (some err, (pre ++ [ek]).map (fun e => SignerCall.SignImage (dstImageRef e))) ∧
      err.Error = "signing image " ++ dstImageRef ek ++ ": " ++ c.Error ∧
      err.wrappedCause = some c := by
  refine ⟨.wrap c ("signing image " ++ dstImageRef ek), ?_, rfl, rfl⟩
  rw [sign_append_ok signer pre (ek :: post) hpre]
  simp [SignImages, hfail, Wrap]
  exact fun _ _ => rfl

/-- Witness of C4 -/
theorem SignImages_stops_at_first_failure_witness :
    (∀ e ∈ [edgeA], ∃ obj, signerBUnsignable.SignImage (dstImageRef e) = .ok obj) ∧
      signerBUnsignable.SignImage (dstImageRef edgeB) = .error (.base "registry unavailable") ∧
      ∃ err, SignImages signerBUnsignable ([edgeA] ++ edgeB :: [edgeC]) =
          (some err, ([edgeA] ++ [edgeB]).map (fun e => SignerCall.SignImage (dstImageRef e))) ∧
        err.Error = "signing image " ++ dstImageRef edgeB ++ ": " ++
          (GoError.base "registry unavailable").Error ∧
        err.wrappedCause = some (.base "registry unavailable") :=
  have hpre : ∀ e ∈ [edgeA], ∃ obj, signerBUnsignable.SignImage (dstImageRef e) = .ok obj := by
    intro e he
    rw [List.mem_singleton] at he
    subst he
    exact ⟨⟨"prod/a@sha256:1"⟩, rfl⟩
  ⟨hpre, rfl,
    SignImages_stops_at_first_failure signerBUnsignable [edgeA] [edgeC] edgeB _ hpre rfl⟩

/-! ## Independence of the iteration order -/

/-- C8: for a signer whose answers are functions of the reference and two orderings of the
same edges (one a permutation of the other), `ValidateStagingSignatures` returns nil under
one ordering exactly when it does under the other, and so does `SignImages`. -/
theorem outcome_independent_of_order (signer : Signer) (edges edges2 : List PromotionEdge)
    (hperm : edges.Perm edges2) :
    ((ValidateStagingSignatures signer edges).1 = none ↔
        (ValidateStagingSignatures signer edges2).1 = none) ∧
      ((SignImages signer edges).1 = none ↔ (SignImages signer edges2).1 = none) := by
  constructor
  · rw [validate_nil_iff, validate_nil_iff]
    exact ⟨fun h e he => h e (hperm.mem_iff.mpr he), fun h e he => h e (hperm.mem_iff.mp he)⟩
  · rw [sign_nil_iff, sign_nil_iff]
    exact ⟨fun h e he => h e (hperm.mem_iff.mpr he), fun h e he => h e (hperm.mem_iff.mp he)⟩

/-- Witness of C8 -/
theorem outcome_independent_of_order_witness :
    [edgeA, edgeB, edgeC].Perm [edgeC, edgeA, edgeB] ∧
      (((ValidateStagingSignatures signerBInvalid [edgeA, edgeB, edgeC]).1 = none ↔
          (ValidateStagingSignatures signerBInvalid [edgeC, edgeA, edgeB]).1 = none) ∧
        ((SignImages signerBInvalid [edgeA, edgeB, edgeC]).1 = none ↔
          (SignImages signerBInvalid [edgeC, edgeA, edgeB]).1 = none)) :=
  have hperm : [edgeA, edgeB, edgeC].Perm [edgeC, edgeA, edgeB] := by decide
  ⟨hperm, outcome_independent_of_order signerBInvalid _ _ hperm⟩

/-! ## Errors of the validator -/

/-- C5, as stated, fails: with edge A unsigned and edge B signed with an invalid signature,
the returned error can contain the source reference of A.  In the first case the reference
of A is a piece of the reference of B, which the validator formats into the message.  In
the second case the cause returned by the signer quotes the reference of A, and the
validator appends the cause unchanged. -/
theorem ValidateStagingSignatures_error_may_mention_other_edge :
    (signerNestedBInvalid.IsImageSigned (srcImageRef edgeNestedA) = .ok false ∧
      signerNestedBInvalid.IsImageSigned (srcImageRef edgeNestedB) = .ok true ∧
      signerNestedBInvalid.VerifyImage (srcImageRef edgeNestedB) =
        .error (.base "invalid signature") ∧
      ∃ err, (ValidateStagingSignatures signerNestedBInvalid [edgeNestedA, edgeNestedB]).1 =
          some err ∧
        err.Error = "verifying signatures of image gcr.io/p/img@sha256:1: invalid signature" ∧
        Mentions err.Error (srcImageRef edgeNestedA)) ∧
    (signerQuoting.IsImageSigned (srcImageRef edgeA) = .ok false ∧
      signerQuoting.IsImageSigned (srcImageRef edgeB) = .ok true ∧
      signerQuoting.VerifyImage (srcImageRef edgeB) =
        .error (.base "signature was made for stg/a@sha256:1") ∧
      ∃ err, (ValidateStagingSignatures signerQuoting [edgeA, edgeB]).1 = some err ∧
        err.Error = "verifying signatures of image stg/b@sha256:2: " ++
          "signature was made for stg/a@sha256:1" ∧
        Mentions err.Error (srcImageRef edgeA)) :=
  ⟨⟨rfl, rfl, rfl, _, rfl, rfl,
      ⟨"verifying signatures of image g".data, ": invalid signature".data, rfl⟩⟩,
    ⟨rfl, rfl, rfl, _, rfl, rfl,
      ⟨"verifying signatures of image stg/b@sha256:2: signature was made for ".data, [], rfl⟩⟩⟩

/-- C5, amended: whenever `ValidateStagingSignatures` returns an error, the edges split as
`pre ++ e :: post` with every edge of `pre` valid and `e` failing; the error wraps the
cause `c` returned by the signer for the source reference `R` of `e`; its message is
`"checking if " + R + " is signed: " + c` when `IsImageSigned` failed and
`"verifying signatures of image " + R + ": " + c` when `VerifyImage` failed; and the calls
made for `e` are one `IsImageSigned` call, followed by one `VerifyImage` call in the second
case.  For two edges, A unsigned and B signed with a signature whose verification fails with
cause `c`, in either iteration order the error is the one for B: its message is
`"verifying signatures of image " + R_B + ": " + c`, it contains `R_B`, `R_B` is not the
source reference of A, and the error is the one returned when B is validated alone. -/
theorem ValidateStagingSignatures_error_names_failing_edge (signer : Signer) :
    (∀ edges err, (ValidateStagingSignatures signer edges).1 = some err →
      ∃ pre e post c, edges = pre ++ e :: post ∧ (∀ x ∈ pre, EdgeValid signer x) ∧
        err.wrappedCause = some c ∧
        ((signer.IsImageSigned (srcImageRef e) = .error c ∧
            err.Error = "checking if " ++ srcImageRef e ++ " is signed: " ++ c.Error ∧
            (ValidateStagingSignatures signer edges).2 =
              checkCallsAll signer pre ++ [.IsImageSigned (srcImageRef e)]) ∨
          (signer.IsImageSigned (srcImageRef e) = .ok true ∧
            signer.VerifyImage (srcImageRef e) = .error c ∧
            err.Error = "verifying signatures of image " ++ srcImageRef e ++ ": " ++ c.Error ∧
            (ValidateStagingSignatures signer edges).2 =
              checkCallsAll signer pre ++
                [.IsImageSigned (srcImageRef e), .VerifyImage (srcImageRef e)]))) ∧
    (∀ A B c, signer.IsImageSigned (srcImageRef A) = .ok false →
      signer.IsImageSigned (srcImageRef B) = .ok true →
      signer.VerifyImage (srcImageRef B) = .error c →
      ∀ edges, edges = [A, B] ∨ edges = [B, A] →
        ∃ err, (ValidateStagingSignatures signer edges).1 = some err ∧
          err.wrappedCause = some c ∧
          err.Error = "verifying signatures of image " ++ srcImageRef B ++ ": " ++ c.Error ∧
          Mentions err.Error (srcImageRef B) ∧
          srcImageRef B ≠ srcImageRef A ∧
          (ValidateStagingSignatures signer [B]).1 = some err) := by
  constructor
  · intro edges err h
    obtain ⟨pre, e, post, c, call, heq, hpre, hf⟩ := validate_error_shape signer edges err h
    have h1 := validate_append_valid signer pre (e :: post) hpre
    refine ⟨pre, e, post, c, heq, hpre, ?_, ?_⟩
    · rcases hf with ⟨_, rfl, _⟩ | ⟨_, _, rfl, _⟩ <;> rfl
    · rcases hf with ⟨hs, rfl, _⟩ | ⟨hs, hv, rfl, _⟩
      · left
        refine ⟨hs, wrap_checking_message _ _, ?_⟩
        rw [heq, h1]
        simp [ValidateStagingSignatures, hs]
      · right
        refine ⟨hs, hv, rfl, ?_⟩
        rw [heq, h1]
        simp [ValidateStagingSignatures, hs, hv]
  · intro A B c hA hB hV edges hedges
    refine ⟨.wrap c ("verifying signatures of image " ++ srcImageRef B), ?_, rfl, rfl, ?_, ?_, ?_⟩
    · rcases hedges with rfl | rfl
      · simp [ValidateStagingSignatures, hA, hB, hV, Wrap]
      · simp [ValidateStagingSignatures, hB, hV, Wrap]
    · exact wrap_verifying_mentions _ _
    · intro hEq
      rw [hEq, hA] at hB
      cases hB
    · simp [ValidateStagingSignatures, hB, hV, Wrap]

/-- Witness of C5 (amended) -/
theorem ValidateStagingSignatures_error_names_failing_edge_witness :
    (∃ pre e post c, [edgeA, edgeB, edgeC] = pre ++ e :: post ∧
        (∀ x ∈ pre, EdgeValid signerBInvalid x) ∧
        (GoError.wrap (.base "invalid signature")
          "verifying signatures of image stg/b@sha256:2").wrappedCause = some c ∧
        ((signerBInvalid.IsImageSigned (srcImageRef e) = .error c ∧
            (GoError.wrap (.base "invalid signature")
              "verifying signatures of image stg/b@sha256:2").Error =
              "checking if " ++ srcImageRef e ++ " is signed: " ++ c.Error ∧
            (ValidateStagingSignatures signerBInvalid [edgeA, edgeB, edgeC]).2 =
              checkCallsAll signerBInvalid pre ++ [.IsImageSigned (srcImageRef e)]) ∨
          (signerBInvalid.IsImageSigned (srcImageRef e) = .ok true ∧
            signerBInvalid.VerifyImage (srcImageRef e) = .error c ∧
            (GoError.wrap (.base "invalid signature")
              "verifying signatures of image stg/b@sha256:2").Error =
              "verifying signatures of image " ++ srcImageRef e ++ ": " ++ c.Error ∧
            (ValidateStagingSignatures signerBInvalid [edgeA, edgeB, edgeC]).2 =
              checkCallsAll signerBInvalid pre ++
                [.IsImageSigned (srcImageRef e), .VerifyImage (srcImageRef e)]))) ∧
    (∃ err, (ValidateStagingSignatures signerBInvalid [edgeB, edgeA]).1 = some err ∧
        err.wrappedCause = some (.base "invalid signature") ∧
        err.Error = "verifying signatures of image " ++ srcImageRef edgeB ++ ": " ++
          (GoError.base "invalid signature").Error ∧
        Mentions err.Error (srcImageRef edgeB) ∧
        srcImageRef edgeB ≠ srcImageRef edgeA ∧
        (ValidateStagingSignatures signerBInvalid [edgeB]).1 = some err) :=
  ⟨(ValidateStagingSignatures_error_names_failing_edge signerBInvalid).1
      [edgeA, edgeB, edgeC] _ rfl,
    (ValidateStagingSignatures_error_names_failing_edge signerBInvalid).2
      edgeA edgeB (.base "invalid signature") rfl rfl rfl [edgeB, edgeA] (Or.inr rfl)⟩

/-! ## The reference passed to the sign operation -/

/-- C9, as stated, fails: for an edge whose destination names equal its source names the
reference `SignImages` passes to the sign operation is the source reference of that edge. -/
theorem SignImages_may_pass_source_reference :
    (SignImages signerNothingSigned [edgeSamePlace]).2 =
        [.SignImage (srcImageRef edgeSamePlace)] ∧
      srcImageRef edgeSamePlace = "reg/img@sha256:1" := by
  decide

/-- C9, amended: the signer calls of `SignImages` are the `SignImage` calls for the first
`n` edges in iteration order, each with the destination reference
`DstRegistry.Name/DstImageTag.Name@Digest` of its edge; for an edge that reference differs
from its source reference exactly when `DstRegistry.Name + "/" + DstImageTag.Name` differs
from `SrcRegistry.Name + "/" + SrcImageTag.Name`. -/
theorem SignImages_passes_destination_reference (signer : Signer)
    (edges : List PromotionEdge) :
    (∃ n, n ≤ edges.length ∧
      (SignImages signer edges).2 = (edges.take n).map (fun e => SignerCall.SignImage
        (e.DstRegistry.Name ++ "/" ++ e.DstImageTag.Name ++ "@" ++ e.Digest))) ∧
    (∀ e : PromotionEdge,
      e.DstRegistry.Name ++ "/" ++ e.DstImageTag.Name ++ "@" ++ e.Digest ≠
          e.SrcRegistry.Name ++ "/" ++ e.SrcImageTag.Name ++ "@" ++ e.Digest ↔
        e.DstRegistry.Name ++ "/" ++ e.DstImageTag.Name ≠
          e.SrcRegistry.Name ++ "/" ++ e.SrcImageTag.Name) := by
  constructor
  · obtain ⟨n, hn, hlog⟩ := sign_calls_take signer edges
    exact ⟨n, hn, hlog⟩
  · intro e
    rw [Ne, Ne, string_append_right_cancel, string_append_right_cancel]

/-! ## The identity token issuer -/

/-- C7, as stated, fails: when client creation fails `GetIdentityToken` returns before
building the request, so for the service account `svc@example.iam` it issues no token
request at all (its only call on the credentials service is the client creation), while
returning the empty token and a non-nil error. -/
theorem GetIdentityToken_no_request_without_client :
    credentialsNoClient.NewIamCredentialsClient =
        .error (.base "could not find default credentials") ∧
      (GetIdentityToken credentialsNoClient "svc@example.iam").2 =
        [.NewIamCredentialsClient] ∧
      tokenRequests (GetIdentityToken credentialsNoClient "svc@example.iam").2 = [] ∧
      tokenRequests (GetIdentityToken credentialsNoClient "svc@example.iam").2 ≠
        [tokenRequest "svc@example.iam"] ∧
      (GetIdentityToken credentialsNoClient "svc@example.iam").1 =
        ("", some (.wrap (.base "could not find default credentials")
          "creating credentials token")) := by
  refine ⟨rfl, rfl, rfl, ?_, rfl⟩
  intro h
  have hlen := congrArg List.length h
  revert hlen
  decide

/-- C7, amended: every token request `GetIdentityToken` issues for the service account `s`
has as `Name` the resource name of `s` (the segments `projects`, `-`, `serviceAccounts` and
`s`, joined by slashes), `Audience = "sigstore"` and `IncludeEmail = true`; it issues
exactly one such request when client creation succeeds and none when client creation
fails.  When client creation and the request both succeed it
returns the token of the response with a nil error; when client creation fails, or the
request fails, it returns the empty token together with a non-nil error. -/
theorem GetIdentityToken_contract (credentials : Credentials) (s : String) :
    (∀ req ∈ tokenRequests (GetIdentityToken credentials s).2,
      req.Name = "projects/-/serviceAccounts/" ++ s ∧ req.Audience = "sigstore" ∧
        req.IncludeEmail = true) ∧
    (∀ client, credentials.NewIamCredentialsClient = .ok client →
      tokenRequests (GetIdentityToken credentials s).2 =
        [⟨"projects/-/serviceAccounts/" ++ s, "sigstore", true⟩]) ∧
    (∀ c, credentials.NewIamCredentialsClient = .error c →
      tokenRequests (GetIdentityToken credentials s).2 = []) ∧
    (∀ client resp, credentials.NewIamCredentialsClient = .ok client →
      client.GenerateIdToken ⟨"projects/-/serviceAccounts/" ++ s, "sigstore", true⟩ = .ok resp →
      (GetIdentityToken credentials s).1 = (resp.Token, none)) ∧
    (∀ c, credentials.NewIamCredentialsClient = .error c →
      ∃ err, (GetIdentityToken credentials s).1 = ("", some err)) ∧
    (∀ client c, credentials.NewIamCredentialsClient = .ok client →
      client.GenerateIdToken ⟨"projects/-/serviceAccounts/" ++ s, "sigstore", true⟩ = .error c →
      ∃ err, (GetIdentityToken credentials s).1 = ("", some err)) := by
  have hreq : tokenRequest s = ⟨"projects/-/serviceAccounts/" ++ s, "sigstore", true⟩ := rfl
  cases hnew : credentials.NewIamCredentialsClient with
  | error c0 => simp [GetIdentityToken, hnew, tokenRequests]
  | ok client0 =>
    cases hgen : client0.GenerateIdToken (tokenRequest s) with
    | error c1 =>
      rw [hreq] at hgen
      simp [GetIdentityToken, hnew, hgen, tokenRequests, tokenRequest]
      intro client resp hc
      subst hc
      simp [hgen]
    | ok resp0 =>
      rw [hreq] at hgen
      simp [GetIdentityToken, hnew, hgen, tokenRequests, tokenRequest]
      constructor
      · intro client resp hc h
        subst hc
        rw [hgen] at h
        cases h
        rfl
      · intro client c hc
        subst hc
        simp [hgen]

/-- Witness of C7 -/
theorem GetIdentityToken_contract_witness :
    tokenRequests (GetIdentityToken credentialsGranting "svc@example.iam").2 =
        [⟨"projects/-/serviceAccounts/svc@example.iam", "sigstore", true⟩] ∧
      (GetIdentityToken credentialsGranting "svc@example.iam").1 =
        ("token of projects/-/serviceAccounts/svc@example.iam", none) ∧
      (∃ err, (GetIdentityToken credentialsNoClient "svc@example.iam").1 = ("", some err)) ∧
      (∃ err, (GetIdentityToken credentialsDenied "svc@example.iam").1 = ("", some err)) :=
  ⟨(GetIdentityToken_contract credentialsGranting "svc@example.iam").2.1 _ rfl,
    (GetIdentityToken_contract credentialsGranting "svc@example.iam").2.2.2.1 _ _ rfl rfl,
    (GetIdentityToken_contract credentialsNoClient "svc@example.iam").2.2.2.2.1 _ rfl,
    (GetIdentityToken_contract credentialsDenied "svc@example.iam").2.2.2.2.2 _ _ rfl rfl⟩

/-- C10, as stated, fails: the error returned for the service account `svc@example.iam`
does not contain that name, neither when client creation fails nor when the token request
fails. -/
theorem GetIdentityToken_error_may_omit_account :
    (∃ err, (GetIdentityToken credentialsNoClient "svc@example.iam").1.2 = some err ∧
        err.Error = "creating credentials token: could not find default credentials" ∧
        ¬ Mentions err.Error "svc@example.iam") ∧
      (∃ err, (GetIdentityToken credentialsDenied "svc@example.iam").1.2 = some err ∧
        err.Error = "getting error account: permission denied" ∧
        ¬ Mentions err.Error "svc@example.iam") := by
  refine ⟨⟨_, rfl, rfl, ?_⟩, ⟨_, rfl, rfl, ?_⟩⟩
  · intro h
    have hmem : '@' ∈ "creating credentials token: could not find default credentials".data :=
      h.subset (by decide)
    revert hmem
    decide
  · intro h
    have hmem : '@' ∈ "getting error account: permission denied".data := h.subset (by decide)
    revert hmem
    decide

/-- C10, amended: whenever `GetIdentityToken` returns an error, that error is the
underlying error wrapped with a fixed context: `"creating credentials token"` when client
creation failed and `"getting error account"` when the token request failed, so that its
message is that context, then `": "`, then the message of the cause.  The context is the
same for every service account. -/
theorem GetIdentityToken_error_context (credentials : Credentials) (s : String)
    (err : GoError) (h : (GetIdentityToken credentials s).1.2 = some err) :
    (∃ c, credentials.NewIamCredentialsClient = .error c ∧
        err = .wrap c "creating credentials token" ∧
        err.Error = "creating credentials token: " ++ c.Error) ∨
      (∃ client c, credentials.NewIamCredentialsClient = .ok client ∧
        client.GenerateIdToken (tokenRequest s) = .error c ∧
        err = .wrap c "getting error account" ∧
        err.Error = "getting error account: " ++ c.Error) := by
  have h1 : ("creating credentials token" ++ ": " : String) = "creating credentials token: " := by
    decide
  have h2 : ("getting error account" ++ ": " : String) = "getting error account: " := by
    decide
  cases hnew : credentials.NewIamCredentialsClient with
  | error c0 =>
    left
    simp [GetIdentityToken, hnew, Wrap] at h
    subst h
    exact ⟨c0, rfl, rfl, by rw [← h1]; rfl⟩
  | ok client0 =>
    right
    cases hgen : client0.GenerateIdToken (tokenRequest s) with
    | error c1 =>
      simp [GetIdentityToken, hnew, hgen, Wrap] at h
      subst h
      exact ⟨client0, c1, rfl, hgen, rfl, by rw [← h2]; rfl⟩
    | ok resp0 =>
      simp [GetIdentityToken, hnew, hgen] at h

/-- Witness of C10 (amended) -/
theorem GetIdentityToken_error_context_witness :
    (GetIdentityToken credentialsDenied "svc@example.iam").1.2 =
        some (.wrap (.base "permission denied") "getting error account") ∧
      ((∃ c, credentialsDenied.NewIamCredentialsClient = .error c ∧
          GoError.wrap (.base "permission denied") "getting error account" =
            .wrap c "creating credentials token" ∧
          (GoError.wrap (.base "permission denied") "getting error account").Error =
            "creating credentials token: " ++ c.Error) ∨
        (∃ client c, credentialsDenied.NewIamCredentialsClient = .ok client ∧
          client.GenerateIdToken (tokenRequest "svc@example.iam") = .error c ∧
          GoError.wrap (.base "permission denied") "getting error account" =
            .wrap c "getting error account" ∧
          (GoError.wrap (.base "permission denied") "getting error account").Error =
            "getting error account: " ++ c.Error)) :=
  ⟨rfl, GetIdentityToken_error_context credentialsDenied "svc@example.iam" _ rfl⟩

end imagepromoter
